import Mathlib

/-!
Verification of the document-synchronization and capability-routing engine of
the `lsps` repository (`codemirror-workspace`): the event-stream operators,
the per-document change pipeline, the workspace tables (open/close/save),
the connection manager, and the completion filtering/sorting helpers.
Each definition is a shallow embedding of the corresponding TypeScript
function; theorems check the spec's claims against those definitions.
-/

namespace LSPS

/-! ## Event stream: skipDuplicates (utils/event-stream.ts)

The operator keeps `prev : Maybe<T>`, initially `null`, and on each received
value `x` runs: `if (!prev || !equals(prev.value, x)) { prev = { value: x }; cb(x); }`.
We embed one subscription as a function from the (ordered) list of received
values to the list of emitted values, threading `prev` explicitly. -/

/-- One subscription run of `skipDuplicates(equals)` from internal state
`prev` (the last emitted value, `none` before the first emission). -/
def skipDuplicatesRun {T : Type} (equals : T → T → Bool) : Option T → List T → List T
  | _, [] => []
  | none, x :: xs => x :: skipDuplicatesRun equals (some x) xs
  | some p, x :: xs =>
    if equals p x then skipDuplicatesRun equals (some p) xs
    else x :: skipDuplicatesRun equals (some x) xs

/-- Modelled from the spec's words, for refinement comparison: after an
emitted value `prevEmitted`, a value `x` is emitted iff
`equals prevEmitted x` does not hold, and emitting updates `prevEmitted`. -/
def specSkipRest {T : Type} (equals : T → T → Bool) (prevEmitted : T) : List T → List T
  | [] => []
  | x :: xs =>
    if equals prevEmitted x then specSkipRest equals prevEmitted xs
    else x :: specSkipRest equals x xs

/-- Modelled from the spec's words, for refinement comparison: the first
value received is always emitted; afterwards `specSkipRest` applies with the
previously *emitted* value as reference. -/
def specSkip {T : Type} (equals : T → T → Bool) : List T → List T
  | [] => []
  | x :: xs => x :: specSkipRest equals x xs

/-! ## Workspace root URI (workspace.ts constructor / getDocumentUri)

`this.rootUri = options.rootUri + (!options.rootUri.endsWith("/") ? "/" : "")`
`getDocumentUri(path)` returns `this.rootUri + path.replace(/^\x2f+/, "")`.
JavaScript strings are embedded as lists of characters. -/

/-- JavaScript `s.endsWith(suffix)` on strings embedded as char lists. -/
def jsEndsWith (s suffix : List Char) : Bool := suffix.isSuffixOf s

/-- The root URI stored by the `Workspace` constructor. -/
def mkRootUri (rootUri : List Char) : List Char :=
  rootUri ++ (if !jsEndsWith rootUri ['/'] then ['/'] else [])

/-- `getDocumentUri`: append the path, with leading separators stripped, to
the stored root URI. -/
def getDocumentUri (storedRootUri path : List Char) : List Char :=
  storedRootUri ++ path.dropWhile (fun c => c = '/')

/-- The property claimed of the stored root: it ends with exactly one
trailing separator (a final separator not preceded by another one). -/
def endsWithExactlyOneSlash (s : List Char) : Bool :=
  jsEndsWith s ['/'] && !jsEndsWith s ['/', '/']

/-! ## The per-document change pipeline (workspace.ts, addEventHandlers)

The `changes` stream is piped through `debouncedBuffer(CHANGES_FRAME)`, a
`map` step that sends exactly one `didChange` notification for the buffered
batch and keeps only the last change object, a `filter` step that handles
deletions, and a subscriber implementing the trigger decision.  We embed one
delivery of the buffered batch as a pure function from the batch (plus the
document state the handlers read) to the notification sent and the ordered
list of renderer/request calls made. -/

/-- Changes stream emits at most once per 50ms (`CHANGES_FRAME`). -/
def CHANGES_FRAME : Nat := 50

/-- A CodeMirror change object, as read by the handlers: its `origin`
(possibly absent) and its replacement text as a list of lines. -/
structure Change where
  origin : Option String
  text : List String
deriving DecidableEq, Repr

/-- The part of a CodeMirror token the trigger decision reads: its `type`
(`null` for none). -/
structure Token where
  type : Option String
deriving DecidableEq, Repr

/-- Modelled from the spec: `lspChange` (utils/conversions.ts, not included
in the sources) converts one editor change into one LSP incremental
content-change record carrying range, range length and replacement text.
Only the one-entry-per-edit correspondence matters here, so the record is
represented by the change it was converted from. -/
inductive ContentChange where
  | incremental (change : Change)
  | full (text : String)
deriving DecidableEq, Repr

/-- Modelled from the spec: the conversion of one editor change to one LSP
content-change record (see `ContentChange`). -/
def lspChange (c : Change) : ContentChange := ContentChange.incremental c

/-- The `didChange` notification payload: document version and content
changes. -/
structure DidChange where
  version : Nat
  contentChanges : List ContentChange
deriving DecidableEq, Repr

/-- Trigger kinds used in completion requests. -/
inductive TriggerKind where
  | invoked
  | triggerCharacter
deriving DecidableEq, Repr

/-- The renderer / connection calls the change subscriber can make, in
order. -/
inductive Action where
  | hideCompletions
  | removeSignatureHelp
  | requestCompletion (kind : TriggerKind) (trigChar : Option String)
  | requestSignatureHelp (trigChar : Option String)
deriving DecidableEq, Repr

/-- The `filter` stage's deletion test:
`change.origin === "+delete" || change.text.every((s) => s.length === 0)`. -/
def isDeletionChange (c : Change) : Bool :=
  c.origin == some "+delete" || c.text.all (fun s => s.length == 0)

/-- JavaScript word character (`\w` of the regex, no unicode flag). -/
def isWordChar (c : Char) : Bool := c.isAlphanum || c = '_'

/-- The test `/\b(?:variable|property|type)\b/.test(t)`: `t` contains one of
the three words delimited by word boundaries, i.e. one of its maximal
word-character runs is exactly that word. -/
def identLikeType (t : String) : Bool :=
  (t.split (fun c => !isWordChar c)).any
    (fun w => w == "variable" || w == "property" || w == "type")

/-- The branch-1 guard `token.type && /\b(?:variable|property|type)\b/.test(token.type)`
(a `null` or empty type is falsy). -/
def tokenIdentGuard (token : Token) : Bool :=
  match token.type with
  | some t => t ≠ "" && identLikeType t
  | none => false

/-- `list.includes(x)` where `x` may be `undefined` (then never contained,
as the declared trigger characters are strings). -/
def optContains (l : List String) (x : Option String) : Bool :=
  match x with
  | some s => l.contains s
  | none => false

/-- The change subscriber's trigger decision for a non-deletion batch
(workspace.ts lines 223-312): four branches checked in order.  The
`triggerCharacter` is `change.text[change.text.length - 1]`, the last line
of the inserted text. -/
def triggerDecision (token : Token) (change : Change)
    (completionTriggers signatureHelpTriggers signatureHelpRetriggers : List String) :
    List Action :=
  if tokenIdentGuard token then
    [Action.removeSignatureHelp, Action.requestCompletion TriggerKind.invoked none]
  else
    let triggerCharacter := change.text.getLast?
    if optContains completionTriggers triggerCharacter then
      [Action.removeSignatureHelp,
        Action.requestCompletion TriggerKind.triggerCharacter triggerCharacter]
    else if optContains signatureHelpTriggers triggerCharacter ||
        optContains signatureHelpRetriggers triggerCharacter then
      [Action.hideCompletions, Action.removeSignatureHelp,
        Action.requestSignatureHelp triggerCharacter]
    else
      [Action.hideCompletions, Action.removeSignatureHelp]

/-- The `filter` stage plus the subscriber, applied to the last change of
the batch: deletions suppress completion and signature help and stop the
pipeline; otherwise the trigger decision runs. -/
def handleLastChange (token : Token) (change : Change)
    (completionTriggers signatureHelpTriggers signatureHelpRetriggers : List String) :
    List Action :=
  if isDeletionChange change then
    [Action.hideCompletions, Action.removeSignatureHelp]
  else
    triggerDecision token change completionTriggers signatureHelpTriggers
      signatureHelpRetriggers

/-- One delivery of a buffered batch through the change pipeline: the `map`
stage increments the document version once and sends exactly one `didChange`
notification (incremental entries via `lspChange` when the connection syncs
incrementally, otherwise a single full-text entry), then the last change of
the batch goes through the filter and the trigger decision.  Returns the new
stored version, the notification, and the handler's calls. -/
def processChangeBatch (syncsIncrementally : Bool) (priorVersion : Nat)
    (fullText : String) (buffered : List (List Change)) (token : Token)
    (completionTriggers signatureHelpTriggers signatureHelpRetriggers : List String) :
    Nat × DidChange × List Action :=
  let newVersion := priorVersion + 1
  let notif : DidChange :=
    { version := newVersion
      contentChanges :=
        if syncsIncrementally then (buffered.map (fun cs => cs.map lspChange)).flatten
        else [ContentChange.full fullText] }
  let actions :=
    match buffered.getLast? with
    | none => []
    | some lastChanges =>
      match lastChanges.getLast? with
      | none => []
      | some change =>
        handleLastChange token change completionTriggers signatureHelpTriggers
          signatureHelpRetriggers
  (newVersion, notif, actions)

/-! ## Association-list embedding of the JS object maps

The workspace's tables (`editors`, `documentVersions`, `connections`) and
the per-editor disposer `WeakMap` are JS keyed maps; we embed them as
association lists with overwrite-on-set (property assignment), filter-out
(`delete`) and first-match lookup. -/

/-- Map lookup (`m[k]`, `undefined` as `none`). -/
def alookup {κ α : Type} [BEq κ] (m : List (κ × α)) (k : κ) : Option α :=
  (m.find? (fun e => e.1 == k)).map (fun e => e.2)

/-- Map assignment (`m[k] = v`): overwrite the existing entry or append. -/
def aset {κ α : Type} [BEq κ] : List (κ × α) → κ → α → List (κ × α)
  | [], k, v => [(k, v)]
  | (k', v') :: rest, k, v =>
    if k' == k then (k, v) :: rest else (k', v') :: aset rest k v

/-- Map deletion (`delete m[k]`). -/
def aerase {κ α : Type} [BEq κ] (m : List (κ × α)) (k : κ) : List (κ × α) :=
  m.filter (fun e => !(e.1 == k))

/-! ## Workspace tables and open/close/save (workspace.ts) -/

/-- Language association returned by `getLanguageAssociation`. -/
structure LanguageAssociation where
  languageId : String
  languageServerIds : List String
deriving DecidableEq, Repr

/-- The workspace's per-document mutable tables: open editors, document
versions, and the per-editor disposer sets. -/
structure Tables where
  editors : List (String × Nat)
  documentVersions : List (String × Nat)
  subscriptionDisposers : List (Nat × List Nat)
deriving DecidableEq, Repr

/-- The `didOpen` notification payload. -/
structure DidOpen where
  uri : String
  languageId : String
  text : String
  version : Nat
deriving DecidableEq, Repr

/-- `openTextDocument` after URI resolution, with the results of the
language-association lookup and of `connect` passed in (the early returns
mirror the source's guards).  On success the editor is stored, the version
entry is reset to 0 and pre-incremented to 1 for the `didOpen`
notification, and `addEventHandlers` registers the subscription disposers
for the editor. -/
def openTextDocument (st : Tables) (uri : String) (editor : Nat)
    (assoc : Option LanguageAssociation) (connResult : Option Nat)
    (docText : String) (disposers : List Nat) : Tables × Option DidOpen :=
  match assoc with
  | none => (st, none)
  | some a =>
    match a.languageServerIds.head? with
    | none => (st, none)
    | some serverId =>
      if serverId == "" then (st, none)
      else
        match connResult with
        | none => (st, none)
        | some _ =>
          let editors := aset st.editors uri editor
          let versions0 := aset st.documentVersions uri 0
          let v := (alookup versions0 uri).getD 0 + 1
          let versions := aset versions0 uri v
          ({ editors := editors
             documentVersions := versions
             subscriptionDisposers := aset st.subscriptionDisposers editor disposers },
            some { uri := uri, languageId := a.languageId, text := docText, version := v })

/-- The outward-visible calls made while closing a document: disposer
invocations, the UI-clearing renderer calls, and the `didClose`
notification.  `removeDiagnostics`, `removeHoverInfo`, `removeHighlights`
and `removeSignatureHelp` are modelled from the spec's renderer interface
(their sources are not included); `hideCompletions` is embedded from its
source (see `hideCompletionsThrows`). -/
inductive CloseEvent where
  | dispose (d : Nat)
  | removeDiagnosticsCall (editor : Option Nat)
  | removeHoverInfoCall (editor : Option Nat)
  | removeHighlightsCall (editor : Option Nat)
  | hideCompletionsCall (editor : Option Nat)
  | removeSignatureHelpCall (editor : Option Nat)
  | didClose (uri : String)
deriving DecidableEq, Repr

/-- `hideCompletions` (the capabilities segment of events.ts) runs
`if (editor.state.completionActive) editor.state.completionActive.close()`:
with an editor present it closes any active popup, but with an absent
editor the `editor.state` access throws a TypeError. -/
def hideCompletionsThrows (editor : Option Nat) : Bool :=
  match editor with
  | some _ => false
  | none => true

/-- The result of a close-path call: the tables afterwards, the calls made,
and whether a TypeError escaped (no further code of the call runs then). -/
structure CloseResult where
  st : Tables
  events : List CloseEvent
  threw : Bool
deriving DecidableEq, Repr

/-- `removeEventHandlers`: invoke and drop every disposer registered for
the editor (the `WeakMap.get` on an absent editor returns `undefined`, so
nothing is disposed then), then clear diagnostics, hover info and
highlights (spec-modelled renderer calls), then `hideCompletions` — which
throws a TypeError when the editor is absent, so `removeSignatureHelp` and
everything after it never run in that case. -/
def removeEventHandlers (st : Tables) (editor : Option Nat) : CloseResult :=
  let disposed :=
    match editor with
    | some e =>
      match alookup st.subscriptionDisposers e with
      | some ds =>
        ({ st with subscriptionDisposers := aerase st.subscriptionDisposers e },
          ds.map CloseEvent.dispose)
      | none => (st, [])
    | none => (st, [])
  if hideCompletionsThrows editor then
    { st := disposed.1
      events := disposed.2 ++
        [CloseEvent.removeDiagnosticsCall editor, CloseEvent.removeHoverInfoCall editor,
          CloseEvent.removeHighlightsCall editor]
      threw := true }
  else
    { st := disposed.1
      events := disposed.2 ++
        [CloseEvent.removeDiagnosticsCall editor, CloseEvent.removeHoverInfoCall editor,
          CloseEvent.removeHighlightsCall editor, CloseEvent.hideCompletionsCall editor,
          CloseEvent.removeSignatureHelpCall editor]
      threw := false }

/-- `closeTextDocument` after URI resolution, with the results of the
language-association and connection-table lookups passed in.  The editor is
looked up, both table entries are deleted, `removeEventHandlers` runs, and
`didClose` is sent — unless `removeEventHandlers` threw, in which case the
call aborts before `conn.textDocumentClosed`. -/
def closeTextDocument (st : Tables) (uri : String)
    (assoc : Option LanguageAssociation) (connPresent : Option Nat) :
    CloseResult :=
  match assoc with
  | none => { st := st, events := [], threw := false }
  | some a =>
    match a.languageServerIds.head? with
    | none => { st := st, events := [], threw := false }
    | some serverId =>
      if serverId == "" then { st := st, events := [], threw := false }
      else
        match connPresent with
        | none => { st := st, events := [], threw := false }
        | some _ =>
          let editor := alookup st.editors uri
          let st1 :=
            { st with
              editors := aerase st.editors uri
              documentVersions := aerase st.documentVersions uri }
          let removed := removeEventHandlers st1 editor
          if removed.threw then removed
          else { removed with events := removed.events ++ [CloseEvent.didClose uri] }

/-- The save reason sent with `willSave` and `getEditsBeforeSave`
(`TextDocumentSaveReason.Manual`). -/
inductive SaveReason where
  | manual
deriving DecidableEq, Repr

/-- The outward-visible steps of `saveTextDocument`, in order.  `E` is the
type of pre-save text edits (their content never matters here). -/
inductive SaveEvent (E : Type) where
  | willSave (reason : SaveReason)
  | requestEditsBeforeSave (reason : SaveReason)
  | applyEditsCall (edits : List E)
  | delayCall (ms : Nat)
  | didSave (text : String)
deriving DecidableEq, Repr

/-- The fixed post-edit save delay: `CHANGES_FRAME * 1.5` milliseconds. -/
def saveDelayMs : Nat := 3 * CHANGES_FRAME / 2

/-- `saveTextDocument` after URI resolution, with the guard lookups, the
editor's current text, the server's `getEditsBeforeSave` response, and the
edit-application function (`applyEdits`, utils/editor.ts, not included in
the sources — modelled from the spec as an arbitrary function applying the
edits to the buffer) passed in.  Returns the ordered event trace. -/
def saveTextDocument {E : Type} (applyEditsF : String → List E → String)
    (assoc : Option LanguageAssociation) (connPresent : Option Nat)
    (editorText : Option String) (editsResponse : Option (List E)) :
    List (SaveEvent E) :=
  match assoc with
  | none => []
  | some a =>
    match a.languageServerIds.head? with
    | none => []
    | some serverId =>
      if serverId == "" then []
      else
        match connPresent with
        | none => []
        | some _ =>
          match editorText with
          | none => []
          | some text0 =>
            [SaveEvent.willSave SaveReason.manual,
              SaveEvent.requestEditsBeforeSave SaveReason.manual] ++
              match editsResponse with
              | some es =>
                [SaveEvent.applyEditsCall es, SaveEvent.delayCall saveDelayMs,
                  SaveEvent.didSave (applyEditsF text0 es)]
              | none => [SaveEvent.didSave text0]

/-! ## Connection manager (workspace.ts, connect)

`connect(serverId)` checks the connection table synchronously, then awaits
`getConnectionString`, then awaits transport setup and `createLspConnection`
and only then stores the connection in the table.  We embed one call as a
small-step machine whose steps are the code runs between suspension points,
so that two overlapping calls can be interleaved explicitly. -/

/-- Global state shared by all `connect` calls: the connection table, a
source of fresh connection identities, and a count of connections created
so far. -/
structure ConnGlobal where
  connections : List (String × Nat)
  nextConnId : Nat
  createdCount : Nat
deriving DecidableEq, Repr

/-- Program counter of one `connect(serverId)` call, positioned at its
suspension points. -/
inductive ConnPhase where
  | atStart
  | awaitingConnectionString
  | awaitingConnection
  | finished (result : Option Nat)
deriving DecidableEq, Repr

/-- One scheduler step of a `connect(serverId)` call: from `atStart` it
checks the table and either finishes with the existing connection or issues
`getConnectionString`; resuming with the connection string it finishes
empty-handed on a falsy string or starts transport setup; resuming with the
created connection it stores it in the table and finishes with it. -/
def connectStep (resolver : String → String) (serverId : String) :
    ConnPhase → ConnGlobal → ConnPhase × ConnGlobal
  | ConnPhase.atStart, g =>
    (match alookup g.connections serverId with
      | some c => (ConnPhase.finished (some c), g)
      | none => (ConnPhase.awaitingConnectionString, g))
  | ConnPhase.awaitingConnectionString, g =>
    if resolver serverId == "" then (ConnPhase.finished none, g)
    else (ConnPhase.awaitingConnection, g)
  | ConnPhase.awaitingConnection, g =>
    (ConnPhase.finished (some g.nextConnId),
      { connections := aset g.connections serverId g.nextConnId
        nextConnId := g.nextConnId + 1
        createdCount := g.createdCount + 1 })
  | ConnPhase.finished r, g => (ConnPhase.finished r, g)

/-- Run two `connect` calls for the same server ID under an explicit
interleaving schedule (`true` steps the first call, `false` the second). -/
def runTwoConnects (resolver : String → String) (serverId : String) :
    List Bool → ConnPhase × ConnPhase × ConnGlobal →
      ConnPhase × ConnPhase × ConnGlobal
  | [], s => s
  | b :: rest, (pa, pb, g) =>
    if b then
      let stepped := connectStep resolver serverId pa g
      runTwoConnects resolver serverId rest (stepped.1, pb, stepped.2)
    else
      let stepped := connectStep resolver serverId pb g
      runTwoConnects resolver serverId rest (pa, stepped.1, stepped.2)

/-- Run one `connect` call to completion with no interleaving (three steps
always reach `finished`). -/
def runConnect (resolver : String → String) (serverId : String) (g : ConnGlobal) :
    Option Nat × ConnGlobal :=
  let s1 := connectStep resolver serverId ConnPhase.atStart g
  let s2 := connectStep resolver serverId s1.1 s1.2
  let s3 := connectStep resolver serverId s2.1 s2.2
  (match s3.1 with
    | ConnPhase.finished r => r
    | _ => none, s3.2)

/-! ## Completion filtering (capabilities: showInvokedCompletions,
filteredItems, lcsScore, lcs)

`filteredItems` builds a score object keyed by item label, sorts a copy of
the item list by descending looked-up score with JavaScript's stable
`Array.prototype.sort` (embedded as a stable insertion sort, which computes
the unique stable descending-by-key permutation), and keeps the first
`maxItems` items.  JS numbers are embedded as rationals. -/

/-- The fields of a completion item read by the filtering code. -/
structure CompletionItem where
  label : String
  filterText : Option String
deriving DecidableEq, Repr

/-- Inner loop of the LCS dynamic program: compute the tail of the new row
from the previous row, where `diag` is the previous row's entry one to the
left, `left` the new row's last entry, and `ps` the rest of the previous
row aligned with the rest of `y`. -/
def lcsRowAux (xc : Char) : Nat → Nat → List Char → List Nat → List Nat
  | _, _, [], _ => []
  | _, _, _ :: _, [] => []
  | diag, left, yc :: ys, p :: ps =>
    let v := if xc = yc then diag + 1 else max p left
    v :: lcsRowAux xc p v ys ps

/-- One outer iteration of the LCS dynamic program: the new row for source
character `xc` (first entry 0, as for `j = 0`). -/
def lcsRow (xc : Char) (y : List Char) (prev : List Nat) : List Nat :=
  match prev with
  | [] => []
  | p0 :: ps => 0 :: lcsRowAux xc p0 0 y ps

/-- `lcs(x, y)`: length of the longest common subsequence via the
two-row dynamic program; the result is the last entry of the final row. -/
def lcs (x y : List Char) : Nat :=
  ((x.foldl (fun row xc => lcsRow xc y row) (List.replicate (y.length + 1) 0)).getLast?).getD 0

/-- Char-list version of JS `String.prototype.startsWith`. -/
def listStartsWith : List Char → List Char → Bool
  | _, [] => true
  | [], _ :: _ => false
  | c :: cs, d :: ds => c = d && listStartsWith cs ds

/-- Char-list version of JS `String.prototype.includes` (substring test). -/
def jsIncludes : List Char → List Char → Bool
  | [], sub => sub.isEmpty
  | c :: rest, sub => listStartsWith (c :: rest) sub || jsIncludes rest sub

/-- `lcsScore(item, typed)`: 0 when either is empty; when `item` contains
`typed` as a substring, `typed.length + 1 / item.length` (shorter items
preferred); otherwise the LCS length with the longer string first. -/
def lcsScore (item typed : String) : ℚ :=
  if item.length == 0 || typed.length == 0 then 0
  else if jsIncludes item.data typed.data then
    (typed.length : ℚ) + 1 / (item.length : ℚ)
  else if item.length < typed.length then (lcs typed.data item.data : ℚ)
  else (lcs item.data typed.data : ℚ)

/-- Score lookup in the label-keyed score object (every label of the sorted
items is present, so the default is never hit on the code's inputs). -/
def lookupScore (m : List (String × ℚ)) (k : String) : ℚ :=
  (alookup m k).getD 0

/-- The score object built by `filteredItems`: one entry per label, written
left to right, so for duplicate labels the last item's score wins. -/
def scoresFor (items : List CompletionItem) (typed : String) : List (String × ℚ) :=
  items.foldl
    (fun o item => aset o item.label (lcsScore (item.filterText.getD item.label) typed))
    []

/-- The non-increasing-key relation used by the comparator
`(a, b) => key(b) - key(a)`: `a` may precede `b` when `key b ≤ key a`. -/
def scoreDescRel (key : CompletionItem → ℚ) (a b : CompletionItem) : Prop :=
  key b ≤ key a

instance (key : CompletionItem → ℚ) : DecidableRel (scoreDescRel key) :=
  fun a b => inferInstanceAs (Decidable (key b ≤ key a))

/-- JavaScript's `Array.prototype.sort` with the comparator
`(a, b) => key(b) - key(a)`.  The ECMAScript sort is required to be stable
and to order per the comparator, which determines the result uniquely for a
total preorder; a stable insertion sort computes exactly that result. -/
def sortByScoreDesc (key : CompletionItem → ℚ) (l : List CompletionItem) :
    List CompletionItem :=
  l.insertionSort (scoreDescRel key)

/-- `filteredItems(items, typed, maxItems)`: sort a copy by descending
label-keyed score and keep the first `maxItems`. -/
def filteredItems (items : List CompletionItem) (typed : String) (maxItems : Nat) :
    List CompletionItem :=
  let scores := scoresFor items typed
  (sortByScoreDesc (fun it => lookupScore scores it.label) items).take maxItems

/-- `showInvokedCompletions`: nothing is shown for an empty item list;
otherwise the popup is handed `filteredItems(items, typed, 30)` where
`typed` is the text spanned by the word range. -/
def showInvokedCompletions (items : List CompletionItem) (typed : String) :
    Option (List CompletionItem) :=
  if items.length == 0 then none else some (filteredItems items typed 30)

/-- An item's own similarity score, as the claim states it: between the
item's filter text (or label) and the typed text. -/
def ownScore (typed : String) (it : CompletionItem) : ℚ :=
  lcsScore (it.filterText.getD it.label) typed

instance (key : CompletionItem → ℚ) : IsTotal CompletionItem (scoreDescRel key) :=
  ⟨fun a b => le_total (key b) (key a)⟩

instance (key : CompletionItem → ℚ) : IsTrans CompletionItem (scoreDescRel key) :=
  ⟨fun _ _ _ h1 h2 => le_trans h2 h1⟩

/-! ## Helper lemmas about the association-list maps -/

theorem alookup_aset_self {κ α : Type} [BEq κ] [LawfulBEq κ]
    (m : List (κ × α)) (k : κ) (v : α) : alookup (aset m k v) k = some v := by
  induction m with
  | nil => simp [aset, alookup]
  | cons e rest ih =>
    by_cases h : e.1 == k
    · simp [aset, alookup, h]
    · simpa [aset, alookup, h] using ih

theorem alookup_aset_ne {κ α : Type} [BEq κ] [LawfulBEq κ]
    (m : List (κ × α)) (k k' : κ) (v : α) (h : k' ≠ k) :
    alookup (aset m k v) k' = alookup m k' := by
  have hkk : (k == k') = false := by
    simp [beq_eq_false_iff_ne]
    exact fun hk => h hk.symm
  induction m with
  | nil => simp [aset, alookup, hkk]
  | cons e rest ih =>
    by_cases he : e.1 == k
    · have he1 : (e.1 == k') = false := by
        have hek := eq_of_beq he
        rw [hek]
        exact hkk
      simp [aset, alookup, he, he1, hkk, List.find?]
    · by_cases he' : e.1 == k'
      · simp [aset, alookup, he, he', List.find?]
      · simp only [aset, he, if_false]
        simpa [alookup, List.find?, he'] using ih

theorem alookup_aerase_self {κ α : Type} [BEq κ] [LawfulBEq κ]
    (m : List (κ × α)) (k : κ) : alookup (aerase m k) k = none := by
  induction m with
  | nil => simp [aerase, alookup]
  | cons e rest ih =>
    by_cases h : e.1 == k
    · simp only [aerase, alookup] at ih ⊢
      simp [h, ih]
    · simp only [aerase, alookup] at ih ⊢
      simp [h, ih, List.find?]

theorem aerase_aerase {κ α : Type} [BEq κ]
    (m : List (κ × α)) (k : κ) : aerase (aerase m k) k = aerase m k := by
  simp [aerase, List.filter_filter]

/-! ## C9: skipDuplicates -/

theorem skipDuplicatesRun_some_eq_specSkipRest {T : Type} (equals : T → T → Bool)
    (p : T) (l : List T) :
    skipDuplicatesRun equals (some p) l = specSkipRest equals p l := by
  induction l generalizing p with
  | nil => rfl
  | cons x xs ih =>
    simp only [skipDuplicatesRun, specSkipRest]
    by_cases h : equals p x = true
    · simp [h, ih]
    · simp [h, ih]

/-- C9: a fresh subscription to `skipDuplicates(equals)` emits the first
received value unconditionally, and afterwards emits a value `x` iff
`equals prev x` does not hold for the immediately preceding *emitted* value
`prev` — which is exactly the behaviour described by `specSkip`. -/
theorem skipDuplicates_matches_spec {T : Type} (equals : T → T → Bool) (l : List T) :
    skipDuplicatesRun equals none l = specSkip equals l := by
  cases l with
  | nil => rfl
  | cons x xs =>
    simp only [skipDuplicatesRun, specSkip]
    rw [skipDuplicatesRun_some_eq_specSkipRest]

/-! ## C8: root URI trailing separator -/

theorem jsEndsWith_iff (s t : List Char) : jsEndsWith s t = true ↔ t <:+ s := by
  simp [jsEndsWith, List.isSuffixOf_iff_suffix]

/-- C8 counterexample: for the input root URI `"a//"` (which already ends
with two separators) the constructor stores it unchanged, so the stored
root URI does not end with *exactly one* trailing separator. -/
theorem mkRootUri_two_slashes_cex :
    mkRootUri [Char.ofNat 97, Char.ofNat 47, Char.ofNat 47] =
        [Char.ofNat 97, Char.ofNat 47, Char.ofNat 47] ∧
      endsWithExactlyOneSlash
        (mkRootUri [Char.ofNat 97, Char.ofNat 47, Char.ofNat 47]) = false := by
  constructor
  · decide
  · decide

/-- C8 (amended): the stored root URI always ends with a trailing
separator, and document URIs are formed by appending the root-relative path
(with leading separators stripped) to it; but it ends with *exactly one*
trailing separator only when the input root URI did not already end with
two — an input ending in several separators is stored unchanged. -/
theorem mkRootUri_trailing_separator (s : List Char) :
    jsEndsWith (mkRootUri s) [Char.ofNat 47] = true ∧
      (endsWithExactlyOneSlash (mkRootUri s) = !jsEndsWith s [Char.ofNat 47, Char.ofNat 47]) ∧
      (∀ path, getDocumentUri (mkRootUri s) path =
        mkRootUri s ++ path.dropWhile (fun c => c = Char.ofNat 47)) := by
  by_cases h : jsEndsWith s [Char.ofNat 47] = true
  · have hroot : mkRootUri s = s := by simp [mkRootUri, h]
    refine ⟨by rw [hroot]; exact h, ?_, fun path => rfl⟩
    rw [hroot, endsWithExactlyOneSlash, h, Bool.true_and]
  · have hb : jsEndsWith s [Char.ofNat 47] = false := by
      simpa using h
    have hroot : mkRootUri s = s ++ [Char.ofNat 47] := by simp [mkRootUri, hb]
    have hone : jsEndsWith (s ++ [Char.ofNat 47]) [Char.ofNat 47] = true := by
      rw [jsEndsWith_iff]
      exact List.suffix_append s [Char.ofNat 47]
    have hs2 : jsEndsWith s [Char.ofNat 47, Char.ofNat 47] = false := by
      by_contra hcon
      have h2 : [Char.ofNat 47, Char.ofNat 47] <:+ s := by
        rw [← jsEndsWith_iff]
        simpa using hcon
      have h1 : [Char.ofNat 47] <:+ s := by
        refine List.IsSuffix.trans ?_ h2
        exact List.suffix_append [Char.ofNat 47] [Char.ofNat 47]
      rw [← jsEndsWith_iff] at h1
      rw [hb] at h1
      exact Bool.false_ne_true h1
    have happ2 : jsEndsWith (s ++ [Char.ofNat 47]) [Char.ofNat 47, Char.ofNat 47] = false := by
      by_contra hcon
      have h2 : [Char.ofNat 47, Char.ofNat 47] <:+ s ++ [Char.ofNat 47] := by
        rw [← jsEndsWith_iff]
        simpa using hcon
      obtain ⟨t, ht⟩ := h2
      have ht' : (t ++ [Char.ofNat 47]) ++ [Char.ofNat 47] = s ++ [Char.ofNat 47] := by
        simpa [List.append_assoc] using ht
      have hts : t ++ [Char.ofNat 47] = s := by
        exact List.append_cancel_right ht'
      have h1 : [Char.ofNat 47] <:+ s := ⟨t, hts⟩
      rw [← jsEndsWith_iff] at h1
      rw [hb] at h1
      exact Bool.false_ne_true h1
    refine ⟨by rw [hroot]; exact hone, ?_, fun path => rfl⟩
    rw [hroot, endsWithExactlyOneSlash, hone, happ2, hs2, Bool.true_and]

/-! ## C3: didOpen always carries version 1 -/

theorem removeEventHandlers_editors (st : Tables) (ed : Option Nat) :
    (removeEventHandlers st ed).st.editors = st.editors := by
  cases ed with
  | none => rfl
  | some e =>
    cases h : alookup st.subscriptionDisposers e <;>
      simp [removeEventHandlers, hideCompletionsThrows, h]

theorem removeEventHandlers_documentVersions (st : Tables) (ed : Option Nat) :
    (removeEventHandlers st ed).st.documentVersions = st.documentVersions := by
  cases ed with
  | none => rfl
  | some e =>
    cases h : alookup st.subscriptionDisposers e <;>
      simp [removeEventHandlers, hideCompletionsThrows, h]

/-- C3: a successful open resets the document's version entry to 0 and
sends `didOpen` with version `0 + 1 = 1`, whatever the tables held before;
closing deletes the version entry, and a subsequent reopen sends version 1
again. -/
theorem openTextDocument_version_one (st : Tables) (uri : String)
    (editor editor2 : Nat) (a : LanguageAssociation) (connId connId2 : Nat)
    (docText docText2 : String) (disposers disposers2 : List Nat) (sid : String)
    (hsid : a.languageServerIds.head? = some sid) (hne : sid ≠ "") :
    (openTextDocument st uri editor (some a) (some connId) docText disposers).2 =
        some { uri := uri, languageId := a.languageId, text := docText, version := 1 } ∧
      alookup (openTextDocument st uri editor (some a) (some connId) docText
          disposers).1.documentVersions uri = some 1 ∧
      alookup (closeTextDocument (openTextDocument st uri editor (some a) (some connId)
          docText disposers).1 uri (some a) (some connId)).st.documentVersions uri = none ∧
      (openTextDocument (closeTextDocument (openTextDocument st uri editor (some a)
          (some connId) docText disposers).1 uri (some a) (some connId)).st uri editor2
          (some a) (some connId2) docText2 disposers2).2 =
        some { uri := uri, languageId := a.languageId, text := docText2, version := 1 } := by
  have hbe : (sid == "") = false := beq_eq_false_iff_ne.mpr hne
  refine ⟨?_, ?_, ?_, ?_⟩ <;>
    simp [openTextDocument, closeTextDocument, hsid, hbe, alookup_aset_self,
      alookup_aerase_self, removeEventHandlers, hideCompletionsThrows,
      removeEventHandlers_documentVersions]

theorem openTextDocument_version_one_witness :
    (openTextDocument ⟨[], [], []⟩ (String.mk [Char.ofNat 117]) 1
        (some ⟨String.mk [Char.ofNat 116], ["srv"]⟩)
        (some 0) (String.mk [Char.ofNat 120]) []).2 =
      some ⟨String.mk [Char.ofNat 117], String.mk [Char.ofNat 116],
        String.mk [Char.ofNat 120], 1⟩ :=
  (openTextDocument_version_one ⟨[], [], []⟩ (String.mk [Char.ofNat 117]) 1 2
    ⟨String.mk [Char.ofNat 116], ["srv"]⟩
    0 0 (String.mk [Char.ofNat 120]) (String.mk [Char.ofNat 120]) [] [] "srv"
    rfl (by decide)).1

/-! ## C1: one didChange per buffered batch -/

/-- C1: one delivery of a buffered batch sends exactly one `didChange`
(`processChangeBatch` produces a single notification); its version is the
prior version incremented once, which is also the version stored back; its
content-change list has one incremental entry per underlying edit of the
batch when the connection syncs incrementally, and is a single entry
carrying the whole document text otherwise. -/
theorem processChangeBatch_didChange (inc : Bool) (version : Nat) (fullText : String)
    (buffered : List (List Change)) (token : Token) (cts sts srs : List String)
    (_hb : buffered ≠ []) :
    (processChangeBatch inc version fullText buffered token cts sts srs).1 =
        version + 1 ∧
      (processChangeBatch inc version fullText buffered token cts sts srs).2.1.version =
        version + 1 ∧
      (inc = true →
        (processChangeBatch inc version fullText buffered token cts sts
              srs).2.1.contentChanges = buffered.flatten.map lspChange ∧
          (processChangeBatch inc version fullText buffered token cts sts
              srs).2.1.contentChanges.length = buffered.flatten.length) ∧
      (inc = false →
        (processChangeBatch inc version fullText buffered token cts sts
            srs).2.1.contentChanges = [ContentChange.full fullText]) := by
  refine ⟨rfl, rfl, fun hinc => ?_, fun hinc => ?_⟩
  · subst hinc
    have hcc : (processChangeBatch true version fullText buffered token cts sts
        srs).2.1.contentChanges = buffered.flatten.map lspChange := by
      simp [processChangeBatch, List.map_flatten]
    exact ⟨hcc, by rw [hcc, List.length_map]⟩
  · subst hinc
    simp [processChangeBatch]

theorem processChangeBatch_didChange_witness :
    (processChangeBatch true 5 (String.mk [Char.ofNat 116])
        [[{ origin := none, text := ["a"] }]] { type := none } [] [] []).1 = 6 ∧
      (processChangeBatch true 5 (String.mk [Char.ofNat 116])
          [[{ origin := none, text := ["a"] }]] { type := none } [] [] []).2.1.contentChanges =
        ([[{ origin := none, text := ["a"] }]] : List (List Change)).flatten.map lspChange :=
  ⟨(processChangeBatch_didChange true 5 (String.mk [Char.ofNat 116])
      [[{ origin := none, text := ["a"] }]] { type := none } [] [] []
      (List.cons_ne_nil _ _)).1,
    ((processChangeBatch_didChange true 5 (String.mk [Char.ofNat 116])
      [[{ origin := none, text := ["a"] }]] { type := none } [] [] []
      (List.cons_ne_nil _ _)).2.2.1 rfl).1⟩

/-! ## C4: deletions suppress and request nothing -/

/-- C4: when the last change of the batch is a deletion (explicit
`+delete` origin, or all replacement lines empty), the handler's only calls
are hiding the completion popup and removing signature help: no completion
request and no signature-help request is issued. -/
theorem deletion_suppresses (inc : Bool) (version : Nat) (fullText : String)
    (buffered : List (List Change)) (token : Token) (cts sts srs : List String)
    (lc : List Change) (change : Change)
    (hb : buffered.getLast? = some lc) (hlc : lc.getLast? = some change)
    (hdel : isDeletionChange change = true) :
    (processChangeBatch inc version fullText buffered token cts sts srs).2.2 =
        [Action.hideCompletions, Action.removeSignatureHelp] ∧
      (∀ k tc, Action.requestCompletion k tc ∉
        (processChangeBatch inc version fullText buffered token cts sts srs).2.2) ∧
      (∀ tc, Action.requestSignatureHelp tc ∉
        (processChangeBatch inc version fullText buffered token cts sts srs).2.2) ∧
      Action.hideCompletions ∈
        (processChangeBatch inc version fullText buffered token cts sts srs).2.2 ∧
      Action.removeSignatureHelp ∈
        (processChangeBatch inc version fullText buffered token cts sts srs).2.2 := by
  have hacts : (processChangeBatch inc version fullText buffered token cts sts srs).2.2 =
      [Action.hideCompletions, Action.removeSignatureHelp] := by
    simp [processChangeBatch, hb, hlc, handleLastChange, hdel]
  rw [hacts]
  refine ⟨rfl, fun k tc => ?_, fun tc => ?_, ?_, ?_⟩ <;> simp

theorem deletion_suppresses_witness :
    (processChangeBatch true 0 (String.mk [Char.ofNat 116])
        [[{ origin := some (String.mk [Char.ofNat 43, Char.ofNat 100, Char.ofNat 101,
          Char.ofNat 108, Char.ofNat 101, Char.ofNat 116, Char.ofNat 101]), text := [] }]]
        { type := none } [] [] []).2.2 =
      [Action.hideCompletions, Action.removeSignatureHelp] :=
  (deletion_suppresses true 0 (String.mk [Char.ofNat 116])
    [[{ origin := some (String.mk [Char.ofNat 43, Char.ofNat 100, Char.ofNat 101,
      Char.ofNat 108, Char.ofNat 101, Char.ofNat 116, Char.ofNat 101]), text := [] }]]
    { type := none } [] [] [] _ _ rfl rfl (by decide)).1

/-! ## C5: the four trigger branches -/

/-- C5: for a non-deletion last change the handler runs exactly one of four
mutually exclusive branches, checked in order: identifier-like token at the
cursor (invoked completion after removing signature help), declared
completion trigger character (trigger-character completion after removing
signature help), declared signature-help trigger or re-trigger character
(signature help after hiding completion and removing signature help), and
otherwise suppression only; in particular a last character outside the
declared completion trigger list never yields a trigger-character
completion request. -/
theorem trigger_decision_branches (inc : Bool) (version : Nat) (fullText : String)
    (buffered : List (List Change)) (token : Token) (cts sts srs : List String)
    (lc : List Change) (change : Change)
    (hb : buffered.getLast? = some lc) (hlc : lc.getLast? = some change)
    (hnd : isDeletionChange change = false) :
    (processChangeBatch inc version fullText buffered token cts sts srs).2.2 =
        handleLastChange token change cts sts srs ∧
      (tokenIdentGuard token = true →
        handleLastChange token change cts sts srs =
          [Action.removeSignatureHelp,
            Action.requestCompletion TriggerKind.invoked none]) ∧
      (tokenIdentGuard token = false →
        optContains cts change.text.getLast? = true →
        handleLastChange token change cts sts srs =
          [Action.removeSignatureHelp,
            Action.requestCompletion TriggerKind.triggerCharacter change.text.getLast?]) ∧
      (tokenIdentGuard token = false →
        optContains cts change.text.getLast? = false →
        (optContains sts change.text.getLast? ||
          optContains srs change.text.getLast?) = true →
        handleLastChange token change cts sts srs =
          [Action.hideCompletions, Action.removeSignatureHelp,
            Action.requestSignatureHelp change.text.getLast?]) ∧
      (tokenIdentGuard token = false →
        optContains cts change.text.getLast? = false →
        (optContains sts change.text.getLast? ||
          optContains srs change.text.getLast?) = false →
        handleLastChange token change cts sts srs =
          [Action.hideCompletions, Action.removeSignatureHelp]) ∧
      (optContains cts change.text.getLast? = false →
        ∀ c, Action.requestCompletion TriggerKind.triggerCharacter c ∉
          handleLastChange token change cts sts srs) := by
  refine ⟨by simp [processChangeBatch, hb, hlc], fun h1 => ?_, fun h1 h2 => ?_,
    fun h1 h2 h3 => ?_, fun h1 h2 h3 => ?_, fun h2 c => ?_⟩
  · simp [handleLastChange, hnd, triggerDecision, h1]
  · simp [handleLastChange, hnd, triggerDecision, h1, h2]
  · simp [handleLastChange, hnd, triggerDecision, h1, h2, h3]
  · simp [handleLastChange, hnd, triggerDecision, h1, h2, h3]
  · by_cases h1 : tokenIdentGuard token
    · simp [handleLastChange, hnd, triggerDecision, h1]
    · by_cases h3 : (optContains sts change.text.getLast? ||
          optContains srs change.text.getLast?) = true
      · simp [handleLastChange, hnd, triggerDecision, h1, h2, h3]
      · simp [handleLastChange, hnd, triggerDecision, h1, h2, h3]

theorem trigger_decision_branches_witness :
    handleLastChange { type := none } { origin := none, text := ["a"] } [] [] [] =
      [Action.hideCompletions, Action.removeSignatureHelp] :=
  ((trigger_decision_branches true 0 (String.mk [Char.ofNat 116])
      [[{ origin := none, text := ["a"] }]] { type := none } [] [] [] _ _
      rfl rfl (by decide)).2.2.2.2.1 (by decide) (by decide) (by decide))

/-! ## C2: connect and racing calls -/

/-- C2 counterexample: two `connect` calls for the same server ID, the
second issued before the first has stored its connection (interleaving
A-check, B-check, A-resume, B-resume, A-store, B-store), create *two*
connections — the existing-connection check of each ran before either had
stored anything — and the two calls observe *different* connections (ids 0
and 1), the second overwriting the first in the table. -/
theorem connect_race_two_connections_cex :
    (runTwoConnects (fun _ => String.mk [Char.ofNat 119]) (String.mk [Char.ofNat 115])
          [true, false, true, false, true, false]
          (ConnPhase.atStart, ConnPhase.atStart, ⟨[], 0, 0⟩)).2.2.createdCount = 2 ∧
      (runTwoConnects (fun _ => String.mk [Char.ofNat 119]) (String.mk [Char.ofNat 115])
          [true, false, true, false, true, false]
          (ConnPhase.atStart, ConnPhase.atStart, ⟨[], 0, 0⟩)).1 =
        ConnPhase.finished (some 0) ∧
      (runTwoConnects (fun _ => String.mk [Char.ofNat 119]) (String.mk [Char.ofNat 115])
          [true, false, true, false, true, false]
          (ConnPhase.atStart, ConnPhase.atStart, ⟨[], 0, 0⟩)).2.1 =
        ConnPhase.finished (some 1) := by
  refine ⟨?_, ?_, ?_⟩ <;> decide

/-- C2 (amended): `connect` shares an *established* connection: a call
whose existing-connection check runs after an earlier call has stored its
connection returns that same connection and creates none.  (Two calls
overlapping before the store each create a connection, as the
counterexample shows.) -/
theorem connect_reuses_stored_connection (resolver : String → String)
    (serverId : String) (g : ConnGlobal)
    (h1 : alookup g.connections serverId = none)
    (h2 : (resolver serverId == "") = false) :
    (runConnect resolver serverId g).1 = some g.nextConnId ∧
      (runConnect resolver serverId g).2.createdCount = g.createdCount + 1 ∧
      (runConnect resolver serverId g).2.connections =
        aset g.connections serverId g.nextConnId ∧
      runConnect resolver serverId (runConnect resolver serverId g).2 =
        ((runConnect resolver serverId g).1, (runConnect resolver serverId g).2) := by
  have hrun : runConnect resolver serverId g =
      (some g.nextConnId,
        { connections := aset g.connections serverId g.nextConnId
          nextConnId := g.nextConnId + 1
          createdCount := g.createdCount + 1 }) := by
    simp [runConnect, connectStep, h1, h2]
  refine ⟨by rw [hrun], by rw [hrun], by rw [hrun], ?_⟩
  rw [hrun]
  simp [runConnect, connectStep, alookup_aset_self]

theorem connect_reuses_stored_connection_witness :
    (runConnect (fun _ => String.mk [Char.ofNat 119]) (String.mk [Char.ofNat 115])
        ⟨[], 0, 0⟩).1 = some 0 :=
  (connect_reuses_stored_connection (fun _ => String.mk [Char.ofNat 119])
    (String.mk [Char.ofNat 115]) ⟨[], 0, 0⟩ rfl rfl).1

/-! ## C6: the save flow -/

/-- C6 counterexample: when the server answers `getEditsBeforeSave` with an
*empty* edit list (zero edits returned, but not a null response), the code
still applies the empty list and waits the fixed 75ms delay before
`didSave` — the claim's "no edits returned → `didSave` follows immediately
with no added delay" fails on this input. -/
theorem save_empty_edit_list_delays_cex :
    saveTextDocument (fun t (_ : List Nat) => t)
        (some ⟨String.mk [Char.ofNat 106], [String.mk [Char.ofNat 115]]⟩) (some 0)
        (some (String.mk [Char.ofNat 120])) (some []) =
      [SaveEvent.willSave SaveReason.manual,
        SaveEvent.requestEditsBeforeSave SaveReason.manual,
        SaveEvent.applyEditsCall [], SaveEvent.delayCall 75,
        SaveEvent.didSave (String.mk [Char.ofNat 120])] ∧
      SaveEvent.delayCall 75 ∈
        saveTextDocument (fun t (_ : List Nat) => t)
          (some ⟨String.mk [Char.ofNat 106], [String.mk [Char.ofNat 115]]⟩) (some 0)
          (some (String.mk [Char.ofNat 120])) (some []) := by
  refine ⟨rfl, ?_⟩
  decide

/-- C6 (amended): `saveTextDocument` sends `willSave` (reason manual) and
requests pre-save edits; on a null/absent edit response `didSave` with the
current text follows immediately with no delay; on *any* returned edit list
(empty included) the edits are applied, the fixed delay of 1.5 times the
change-batching window (75ms) passes, and `didSave` carries the post-edit
text. -/
theorem saveTextDocument_flow {E : Type} (applyF : String → List E → String)
    (a : LanguageAssociation) (sid : String) (connId : Nat) (text0 : String)
    (hsid : a.languageServerIds.head? = some sid) (hne : sid ≠ "") :
    saveTextDocument applyF (some a) (some connId) (some text0) none =
        [SaveEvent.willSave SaveReason.manual,
          SaveEvent.requestEditsBeforeSave SaveReason.manual,
          SaveEvent.didSave text0] ∧
      (∀ es : List E,
        saveTextDocument applyF (some a) (some connId) (some text0) (some es) =
          [SaveEvent.willSave SaveReason.manual,
            SaveEvent.requestEditsBeforeSave SaveReason.manual,
            SaveEvent.applyEditsCall es, SaveEvent.delayCall saveDelayMs,
            SaveEvent.didSave (applyF text0 es)]) ∧
      saveDelayMs = 75 ∧ 2 * saveDelayMs = 3 * CHANGES_FRAME := by
  have hbe : (sid == "") = false := beq_eq_false_iff_ne.mpr hne
  refine ⟨?_, fun es => ?_, rfl, rfl⟩ <;> simp [saveTextDocument, hsid, hbe]

theorem saveTextDocument_flow_witness :
    saveTextDocument (fun t (_ : List Nat) => t)
        (some ⟨String.mk [Char.ofNat 106], [String.mk [Char.ofNat 115]]⟩) (some 0)
        (some (String.mk [Char.ofNat 120])) none =
      [SaveEvent.willSave SaveReason.manual,
        SaveEvent.requestEditsBeforeSave SaveReason.manual,
        SaveEvent.didSave (String.mk [Char.ofNat 120])] :=
  (saveTextDocument_flow (fun t (_ : List Nat) => t)
    ⟨String.mk [Char.ofNat 106], [String.mk [Char.ofNat 115]]⟩
    (String.mk [Char.ofNat 115]) 0 (String.mk [Char.ofNat 120]) rfl (by decide)).1

/-! ## C7: the close flow -/

/-- C7: evaluation of a double close at a concrete failing input
(document `u` open on editor 7 with disposers 1 and 2, association present,
connection alive).  The first close disposes each disposer exactly once,
clears all five UI surfaces, empties the editor and version tables and
sends `didClose`, completing normally.  The second close on the now-closed
URI — `closeTextDocument` has no `if (!editor) return` guard, unlike
`saveTextDocument` — proceeds with the absent editor until
`hideCompletions` throws a TypeError reading `editor.state`: so it disposes
nothing and changes no table state and no `didClose` is sent, but the call
aborts with an uncaught exception instead of the guarded early-return
no-op the claim and the spec's error-handling design describe. -/
theorem close_twice_second_throws :
    (closeTextDocument ⟨[(String.mk [Char.ofNat 117], 7)],
          [(String.mk [Char.ofNat 117], 3)], [(7, [1, 2])]⟩
        (String.mk [Char.ofNat 117])
        (some ⟨String.mk [Char.ofNat 108], [String.mk [Char.ofNat 115]]⟩)
        (some 0)).threw = false ∧
      (closeTextDocument ⟨[(String.mk [Char.ofNat 117], 7)],
          [(String.mk [Char.ofNat 117], 3)], [(7, [1, 2])]⟩
        (String.mk [Char.ofNat 117])
        (some ⟨String.mk [Char.ofNat 108], [String.mk [Char.ofNat 115]]⟩)
        (some 0)).events =
        [CloseEvent.dispose 1, CloseEvent.dispose 2,
          CloseEvent.removeDiagnosticsCall (some 7),
          CloseEvent.removeHoverInfoCall (some 7),
          CloseEvent.removeHighlightsCall (some 7),
          CloseEvent.hideCompletionsCall (some 7),
          CloseEvent.removeSignatureHelpCall (some 7),
          CloseEvent.didClose (String.mk [Char.ofNat 117])] ∧
      alookup (closeTextDocument ⟨[(String.mk [Char.ofNat 117], 7)],
          [(String.mk [Char.ofNat 117], 3)], [(7, [1, 2])]⟩
        (String.mk [Char.ofNat 117])
        (some ⟨String.mk [Char.ofNat 108], [String.mk [Char.ofNat 115]]⟩)
        (some 0)).st.editors (String.mk [Char.ofNat 117]) = none ∧
      alookup (closeTextDocument ⟨[(String.mk [Char.ofNat 117], 7)],
          [(String.mk [Char.ofNat 117], 3)], [(7, [1, 2])]⟩
        (String.mk [Char.ofNat 117])
        (some ⟨String.mk [Char.ofNat 108], [String.mk [Char.ofNat 115]]⟩)
        (some 0)).st.documentVersions (String.mk [Char.ofNat 117]) = none ∧
      (closeTextDocument (closeTextDocument ⟨[(String.mk [Char.ofNat 117], 7)],
            [(String.mk [Char.ofNat 117], 3)], [(7, [1, 2])]⟩
          (String.mk [Char.ofNat 117])
          (some ⟨String.mk [Char.ofNat 108], [String.mk [Char.ofNat 115]]⟩)
          (some 0)).st
        (String.mk [Char.ofNat 117])
        (some ⟨String.mk [Char.ofNat 108], [String.mk [Char.ofNat 115]]⟩)
        (some 0)).threw = true ∧
      (closeTextDocument (closeTextDocument ⟨[(String.mk [Char.ofNat 117], 7)],
            [(String.mk [Char.ofNat 117], 3)], [(7, [1, 2])]⟩
          (String.mk [Char.ofNat 117])
          (some ⟨String.mk [Char.ofNat 108], [String.mk [Char.ofNat 115]]⟩)
          (some 0)).st
        (String.mk [Char.ofNat 117])
        (some ⟨String.mk [Char.ofNat 108], [String.mk [Char.ofNat 115]]⟩)
        (some 0)).events =
        [CloseEvent.removeDiagnosticsCall none, CloseEvent.removeHoverInfoCall none,
          CloseEvent.removeHighlightsCall none] ∧
      (closeTextDocument (closeTextDocument ⟨[(String.mk [Char.ofNat 117], 7)],
            [(String.mk [Char.ofNat 117], 3)], [(7, [1, 2])]⟩
          (String.mk [Char.ofNat 117])
          (some ⟨String.mk [Char.ofNat 108], [String.mk [Char.ofNat 115]]⟩)
          (some 0)).st
        (String.mk [Char.ofNat 117])
        (some ⟨String.mk [Char.ofNat 108], [String.mk [Char.ofNat 115]]⟩)
        (some 0)).st =
        (closeTextDocument ⟨[(String.mk [Char.ofNat 117], 7)],
            [(String.mk [Char.ofNat 117], 3)], [(7, [1, 2])]⟩
          (String.mk [Char.ofNat 117])
          (some ⟨String.mk [Char.ofNat 108], [String.mk [Char.ofNat 115]]⟩)
          (some 0)).st := by
  refine ⟨?_, ?_, ?_, ?_, ?_, ?_, ?_⟩ <;> decide

/-! ## C10: completion filtering and sorting -/

theorem scoresFold_lookup_of_not_mem (typed : String) :
    ∀ (items : List CompletionItem) (acc : List (String × ℚ)) (k : String),
      (∀ i ∈ items, i.label ≠ k) →
      alookup (items.foldl
          (fun o i => aset o i.label (lcsScore (i.filterText.getD i.label) typed))
          acc) k =
        alookup acc k := by
  intro items
  induction items with
  | nil => intro acc k _; rfl
  | cons i rest ih =>
    intro acc k hk
    have hrest : ∀ j ∈ rest, j.label ≠ k := fun j hj => hk j (List.mem_cons_of_mem i hj)
    have hik : k ≠ i.label := fun hkk => hk i (List.mem_cons_self i rest) hkk.symm
    simp only [List.foldl_cons]
    rw [ih _ k hrest, alookup_aset_ne _ _ _ _ hik]

theorem scoresFor_lookup_of_nodup (typed : String) :
    ∀ (items : List CompletionItem) (acc : List (String × ℚ)) (it : CompletionItem),
      it ∈ items → (items.map (fun i => i.label)).Nodup →
      alookup (items.foldl
          (fun o i => aset o i.label (lcsScore (i.filterText.getD i.label) typed))
          acc) it.label =
        some (lcsScore (it.filterText.getD it.label) typed) := by
  intro items
  induction items with
  | nil => intro acc it hit; exact absurd hit (List.not_mem_nil it)
  | cons i rest ih =>
    intro acc it hit hnodup
    simp only [List.map_cons, List.nodup_cons] at hnodup
    rcases List.mem_cons.mp hit with heq | hmem
    · subst heq
      simp only [List.foldl_cons]
      have hrest : ∀ j ∈ rest, j.label ≠ it.label := by
        intro j hj hjl
        exact hnodup.1 (hjl ▸ List.mem_map_of_mem (fun i => i.label) hj)
      rw [scoresFold_lookup_of_not_mem typed rest _ it.label hrest,
        alookup_aset_self]
    · simp only [List.foldl_cons]
      exact ih _ it hmem hnodup.2

/-- C10 counterexample: three completion items where the first and third
share the label `"a"` but have different filter texts (`"xy"` and `"aq"`),
with typed text `"ab"`.  The score object keeps only the last score written
for label `"a"`, so all three items tie on the looked-up score and the
stable sort returns them unchanged — but the resulting list is *not* sorted
by each item's own filter-text score (0, 1, 1). -/
theorem showInvokedCompletions_not_ownScore_sorted_cex :
    showInvokedCompletions
        [⟨String.mk [Char.ofNat 97], some (String.mk [Char.ofNat 120, Char.ofNat 121])⟩,
          ⟨String.mk [Char.ofNat 98], some (String.mk [Char.ofNat 97, Char.ofNat 113])⟩,
          ⟨String.mk [Char.ofNat 97], some (String.mk [Char.ofNat 97, Char.ofNat 113])⟩]
        (String.mk [Char.ofNat 97, Char.ofNat 98]) =
      some
        [⟨String.mk [Char.ofNat 97], some (String.mk [Char.ofNat 120, Char.ofNat 121])⟩,
          ⟨String.mk [Char.ofNat 98], some (String.mk [Char.ofNat 97, Char.ofNat 113])⟩,
          ⟨String.mk [Char.ofNat 97], some (String.mk [Char.ofNat 97, Char.ofNat 113])⟩] ∧
      ¬ List.Pairwise
        (fun p q => ownScore (String.mk [Char.ofNat 97, Char.ofNat 98]) q ≤
          ownScore (String.mk [Char.ofNat 97, Char.ofNat 98]) p)
        [⟨String.mk [Char.ofNat 97], some (String.mk [Char.ofNat 120, Char.ofNat 121])⟩,
          ⟨String.mk [Char.ofNat 98], some (String.mk [Char.ofNat 97, Char.ofNat 113])⟩,
          ⟨String.mk [Char.ofNat 97], some (String.mk [Char.ofNat 97, Char.ofNat 113])⟩] := by
  refine ⟨by decide, by decide⟩

/-- C10 (amended): an empty item list shows no popup; a non-empty list
hands the popup `filteredItems items typed 30`, which has at most 30 items
and is sorted in non-increasing order of the scores looked up by item
*label* in the left-to-right score object (for duplicate labels the last
item's filter-text score wins); when the labels are pairwise distinct this
coincides with each item's own filter-text (or label) score, as the claim
states. -/
theorem showInvokedCompletions_sorted (items : List CompletionItem) (typed : String)
    (h : items ≠ []) :
    showInvokedCompletions [] typed = none ∧
      showInvokedCompletions items typed = some (filteredItems items typed 30) ∧
      (filteredItems items typed 30).length ≤ 30 ∧
      List.Pairwise
        (fun p q => lookupScore (scoresFor items typed) q.label ≤
          lookupScore (scoresFor items typed) p.label)
        (filteredItems items typed 30) ∧
      ((items.map (fun i => i.label)).Nodup →
        List.Pairwise (fun p q => ownScore typed q ≤ ownScore typed p)
          (filteredItems items typed 30)) := by
  have hlen : (items.length == 0) = false := by
    rcases items with _ | ⟨i, rest⟩
    · exact absurd rfl h
    · rfl
  have hsorted : List.Pairwise
      (scoreDescRel (fun it => lookupScore (scoresFor items typed) it.label))
      (filteredItems items typed 30) := by
    refine List.Pairwise.sublist (List.take_sublist 30 _) ?_
    exact List.sorted_insertionSort
      (scoreDescRel (fun it => lookupScore (scoresFor items typed) it.label)) items
  refine ⟨rfl, by simp [showInvokedCompletions, hlen], ?_, hsorted, fun hnodup => ?_⟩
  · exact List.length_take_le 30 _
  · refine hsorted.imp_of_mem ?_
    intro p q hp hq hpq
    have hmemp : p ∈ items := by
      have := (List.take_sublist 30 _).mem hp
      exact (List.mem_insertionSort _).mp this
    have hmemq : q ∈ items := by
      have := (List.take_sublist 30 _).mem hq
      exact (List.mem_insertionSort _).mp this
    have hsp : lookupScore (scoresFor items typed) p.label = ownScore typed p := by
      rw [lookupScore, scoresFor, scoresFor_lookup_of_nodup typed items [] p hmemp hnodup]
      rfl
    have hsq : lookupScore (scoresFor items typed) q.label = ownScore typed q := by
      rw [lookupScore, scoresFor, scoresFor_lookup_of_nodup typed items [] q hmemq hnodup]
      rfl
    simp only [scoreDescRel] at hpq
    rw [hsp, hsq] at hpq
    exact hpq

theorem showInvokedCompletions_sorted_witness :
    (filteredItems
        [⟨String.mk [Char.ofNat 97], none⟩, ⟨String.mk [Char.ofNat 98], none⟩]
        (String.mk [Char.ofNat 97]) 30).length ≤ 30 :=
  (showInvokedCompletions_sorted
    [⟨String.mk [Char.ofNat 97], none⟩, ⟨String.mk [Char.ofNat 98], none⟩]
    (String.mk [Char.ofNat 97]) (by decide)).2.2.1

end LSPS
